import Mathlib

/-!
Verification development for the quick-access layer of the minim new-tab page:
the `Shortcuts` component (src/components/Shortcuts.tsx), the
`BookmarksSidebar` component (src/components/BookmarksSidebar.tsx, which ships
two variants of the component in the source tree), and the favicon helper
`getFaviconUrl` (src/utils.ts).

Modelling conventions:
- Host platform primitives (the WHATWG URL parser behind `new URL(url).hostname`,
  `JSON.parse`, the chrome extension runtime) are not code of this repository;
  they are passed in explicitly (as a `JsEnv` record or a `parse` function
  argument), and theorems assume only the facts about them that the claims need.
- `Date.now()` is passed explicitly as a `now : Nat` argument to every operation
  that reads the clock.
- JavaScript exceptions are made explicit with `Except`; a `try` / `catch` block
  becomes a `match` on the `Except` value.
- React state updates are modelled as pure functions on a component-state
  record; the `useEffect` that persists `shortcuts` after every change is
  modelled by having each operation that calls `setShortcuts` also emit the
  list it writes to the persistence port.
-/

/-- Source constant MAX_SHORTCUTS in src/components/Shortcuts.tsx. -/
def MAX_SHORTCUTS : Nat := 5

/-- Source constant SHORTCUTS_KEY, the persistence-port key. -/
def SHORTCUTS_KEY : String := "minim-shortcuts"

/-- ShortcutItem from src/components/Shortcuts.tsx. -/
structure Item where
  id : String
  url : String
  title : String
deriving DecidableEq

/-- The defaultShortcuts constant from src/components/Shortcuts.tsx. -/
def defaultShortcuts : List Item :=
  [ ⟨"1", "https://mail.google.com", "Gmail"⟩
  , ⟨"2", "https://gemini.google.com", "Gemini"⟩
  , ⟨"3", "https://chatgpt.com", "ChatGPT"⟩
  , ⟨"4", "https://www.youtube.com", "YouTube"⟩
  , ⟨"5", "https://drive.google.com", "Drive"⟩ ]

/-- The CUSTOM_ICONS brand-override table from src/components/Shortcuts.tsx,
as an association list in source order. -/
def CUSTOM_ICONS : List (String × String) :=
  [ ("mail.google.com", "https://cdn.simpleicons.org/gmail/EA4335")
  , ("gemini.google.com", "https://cdn.simpleicons.org/googlegemini/8E75B2")
  , ("chatgpt.com", "https://cdn.simpleicons.org/openai/412991")
  , ("chat.openai.com", "https://cdn.simpleicons.org/openai/412991")
  , ("www.youtube.com", "https://cdn.simpleicons.org/youtube/FF0000")
  , ("youtube.com", "https://cdn.simpleicons.org/youtube/FF0000")
  , ("drive.google.com", "https://cdn.simpleicons.org/googledrive/4285F4") ]

/-- JavaScript values produced by JSON.parse (the JSON data model). -/
inductive Js where
  | null
  | bool (b : Bool)
  | num (n : Int)
  | str (s : String)
  | arr (elems : List Js)
  | obj (fields : List (String × Js))

/-- The JS expression `v.length` as read by loadShortcuts: defined (a number)
for arrays and strings, and for JSON objects that carry a numeric "length"
field; `undefined` (`none`) otherwise.  (String length is modelled as the
character count; JSON numbers other than integers, and JS numeric coercion of
a non-numeric "length" property, are outside what any claim depends on.) -/
def jsLength : Js → Option Int
  | .arr l => some (l.length : Int)
  | .str s => some (s.length : Int)
  | .obj fields =>
      match fields.lookup "length" with
      | some (.num n) => some n
      | _ => none
  | _ => none

/-- The JS call `v.slice(0, n)`: arrays and strings have a slice method;
calling `.slice` on any other JSON.parse result throws a TypeError. -/
def jsSlice : Js → Nat → Except Unit Js
  | .arr l, n => .ok (.arr (l.take n))
  | .str s, n => .ok (.str (String.mk (s.data.take n)))
  | _, _ => .error ()

/-- The body of the `try` block of loadShortcuts
(src/components/Shortcuts.tsx lines 43-54), with JS exceptions explicit:
`.error ()` is a thrown exception, `.ok none` means the `if (stored)` guard
fell through (the key is absent or holds the empty string, which is falsy),
`.ok (some v)` is an early `return v`.
The stored value is `none` when the key is absent; `parse` is the platform
`JSON.parse`, returning `none` when it throws on the given text. -/
def loadShortcutsBody (parse : String → Option Js) (stored : Option String) :
    Except Unit (Option Js) :=
  match stored with
  | none => .ok none
  | some raw =>
      if raw = "" then .ok none
      else
        match parse raw with
        | none => .error ()
        | some v =>
            match jsLength v with
            | some n =>
                if n ≤ (MAX_SHORTCUTS : Int) then .ok (some v)
                else (jsSlice v MAX_SHORTCUTS).map some
            | none => (jsSlice v MAX_SHORTCUTS).map some

/-- jsOfItem: the JS object value a ShortcutItem denotes (fields in the
declaration order id, url, title, which JSON.stringify preserves). -/
def jsOfItem (it : Item) : Js :=
  .obj [("id", .str it.id), ("url", .str it.url), ("title", .str it.title)]

/-- jsOfItems: a ShortcutItem array as a JS value. -/
def jsOfItems (items : List Item) : Js :=
  .arr (items.map jsOfItem)

/-- The default shortcut set as the JS value `loadShortcuts` returns when it
falls back. -/
def defaultShortcutsJs : Js := jsOfItems defaultShortcuts

/-- loadShortcuts (src/components/Shortcuts.tsx lines 43-54): the `catch`
block swallows any exception from the body, and control then reaches
`return defaultShortcuts`. -/
def loadShortcuts (parse : String → Option Js) (stored : Option String) : Js :=
  match loadShortcutsBody parse stored with
  | .ok (some v) => v
  | .ok none => defaultShortcutsJs
  | .error _ => defaultShortcutsJs

/-- Lower-case hex digit, as used by JSON.stringify for control-character
escapes. -/
def hexDigitLower (n : Nat) : Char :=
  if n < 10 then Char.ofNat (48 + n) else Char.ofNat (87 + n)

/-- JSON.stringify escaping of a single string character: quote, backslash,
the named control escapes, and \u00XX for the remaining control characters;
every other character is emitted verbatim. -/
def jsonEscapeChar (c : Char) : List Char :=
  if c = '"' then ['\\', '"']
  else if c = '\\' then ['\\', '\\']
  else if c = '\x08' then ['\\', 'b']
  else if c = '\x0c' then ['\\', 'f']
  else if c = '\n' then ['\\', 'n']
  else if c = '\r' then ['\\', 'r']
  else if c = '\t' then ['\\', 't']
  else if c.toNat < 32 then
    ['\\', 'u', '0', '0', hexDigitLower (c.toNat / 16), hexDigitLower (c.toNat % 16)]
  else [c]

/-- JSON.stringify of a string value. -/
def jsonQuote (s : String) : String :=
  "\"" ++ String.mk (s.data.foldr (fun c acc => jsonEscapeChar c ++ acc) []) ++ "\""

/-- JSON.stringify of one ShortcutItem object (insertion-order fields). -/
def stringifyItem (it : Item) : String :=
  "\x7b\"id\":" ++ jsonQuote it.id ++ ",\"url\":" ++ jsonQuote it.url ++
    ",\"title\":" ++ jsonQuote it.title ++ "\x7d"

/-- Comma-join, as JSON.stringify does between array elements. -/
def joinComma : List String → String
  | [] => ""
  | [s] => s
  | s :: rest => s ++ "," ++ joinComma rest

/-- JSON.stringify of a ShortcutItem array. -/
def stringifyItems (items : List Item) : String :=
  "[" ++ joinComma (items.map stringifyItem) ++ "]"

/-- saveShortcuts (src/components/Shortcuts.tsx lines 56-58): the string
written to the persistence port at SHORTCUTS_KEY is JSON.stringify(items). -/
def saveShortcuts (items : List Item) : String :=
  stringifyItems items

/-- Reading a JS value back as a ShortcutItem, the shape the component's
unchecked cast `JSON.parse(stored) as ShortcutItem[]` assumes: an object with
exactly the fields id, url, title holding strings. -/
def itemOfJs : Js → Option Item
  | .obj [("id", .str i), ("url", .str u), ("title", .str t)] => some ⟨i, u, t⟩
  | _ => none

/-- Element-wise reading of a JS list as ShortcutItems. -/
def itemsOfJsList : List Js → Option (List Item)
  | [] => some []
  | j :: rest =>
      match itemOfJs j, itemsOfJsList rest with
      | some it, some items => some (it :: items)
      | _, _ => none

/-- Reading a JS value as a ShortcutItem array. -/
def itemsOfJs : Js → Option (List Item)
  | .arr l => itemsOfJsList l
  | _ => none

/-- The host-platform surface the icon and label code touches.
`parseHostname url` is `new URL(url).hostname`: `none` when the constructor
throws.  `chromeFaviconBase` is `chrome.runtime.getURL("/_favicon/")` when
`typeof chrome !== "undefined" && chrome.runtime?.getURL` holds, else `none`. -/
structure JsEnv where
  parseHostname : String → Option String
  chromeFaviconBase : Option String

/-- Characters encodeURIComponent leaves unescaped: ASCII alphanumerics and
- _ . ! ~ * ( ) plus the apostrophe character U+0027 (written by code point
below). -/
def isUnreservedChar (c : Char) : Bool :=
  c.isAlpha || c.isDigit || c = '-' || c = '_' || c = '.' || c = '!' ||
    c = '~' || c = '*' || c.toNat = 39 || c = '(' || c = ')'

/-- Upper-case hex digit, as produced by encodeURIComponent percent escapes. -/
def hexDigitUpper (n : Nat) : Char :=
  if n < 10 then Char.ofNat (48 + n) else Char.ofNat (55 + n)

/-- UTF-8 bytes of a character (as Nats below 256). -/
def utf8Bytes (c : Char) : List Nat :=
  let n := c.toNat
  if n < 0x80 then [n]
  else if n < 0x800 then [0xC0 + n / 64, 0x80 + n % 64]
  else if n < 0x10000 then
    [0xE0 + n / 4096, 0x80 + (n / 64) % 64, 0x80 + n % 64]
  else
    [0xF0 + n / 262144, 0x80 + (n / 4096) % 64, 0x80 + (n / 64) % 64, 0x80 + n % 64]

/-- Percent escape of one byte. -/
def percentEncodeByte (n : Nat) : List Char :=
  ['%', hexDigitUpper (n / 16), hexDigitUpper (n % 16)]

/-- encodeURIComponent on one character. -/
def encChar (c : Char) : List Char :=
  if isUnreservedChar c then [c]
  else (utf8Bytes c).foldr (fun b acc => percentEncodeByte b ++ acc) []

/-- encodeURIComponent on a character list. -/
def encList (l : List Char) : List Char :=
  l.foldr (fun c acc => encChar c ++ acc) []

/-- The platform encodeURIComponent function. -/
def encodeURIComponent (s : String) : String :=
  String.mk (encList s.data)

/-- getFaviconUrl from src/utils.ts: prefer the chrome-extension favicon
endpoint when available; otherwise build a public favicon-by-domain URL from
the parsed hostname, returning the empty string when the URL constructor
throws. -/
def getFaviconUrl (env : JsEnv) (url : String) (size : Nat) : String :=
  match env.chromeFaviconBase with
  | some base => base ++ "?pageUrl=" ++ encodeURIComponent url ++ "&size=" ++ toString size
  | none =>
      match env.parseHostname url with
      | some domain =>
          "https://www.google.com/s2/favicons?domain=" ++ domain ++ "&sz=" ++ toString size
      | none => ""

/-- getShortcutIconUrl from src/components/Shortcuts.tsx lines 34-41:
on a parsable URL, the brand-override table is consulted first
(`CUSTOM_ICONS[host] ?? getFaviconUrl(url, 64)`); when `new URL` throws,
control falls to `getFaviconUrl(url, 64)`. -/
def getShortcutIconUrl (env : JsEnv) (url : String) : String :=
  match env.parseHostname url with
  | some host =>
      match CUSTOM_ICONS.lookup host with
      | some icon => icon
      | none => getFaviconUrl env url 64
  | none => getFaviconUrl env url 64

/-- The regex replace `hostname.replace(/^www\./, "")` in getLabel: the
pattern is anchored at the start and matches the literal characters
w w w dot, removed at most once. -/
def stripWww (h : String) : String :=
  if h.data.take 4 = ['w', 'w', 'w', '.'] then String.mk (h.data.drop 4) else h

/-- getLabel from src/components/Shortcuts.tsx lines 60-67: a truthy
(non-empty) title wins; else the URL hostname with a leading "www." stripped;
when `new URL` throws, the literal "Link". -/
def getLabel (env : JsEnv) (item : Item) : String :=
  if item.title ≠ "" then item.title
  else
    match env.parseHostname item.url with
    | some host => stripWww host
    | none => "Link"

/-- BookmarkTreeNode from src/components/BookmarksSidebar.tsx.  An absent
`children` field and an empty children array are observationally equal for
every use in the source (`n.children?.length` is falsy for both), so children
is a plain list. -/
inductive BNode where
  | mk (id : String) (title : String) (url : Option String) (children : List BNode)

/-- Node id accessor. -/
def BNode.id : BNode → String
  | .mk i _ _ _ => i

/-- Node title accessor. -/
def BNode.title : BNode → String
  | .mk _ t _ _ => t

/-- Node url accessor. -/
def BNode.url : BNode → Option String
  | .mk _ _ u _ => u

/-- Node children accessor. -/
def BNode.children : BNode → List BNode
  | .mk _ _ _ c => c

/-- bookmarkLabel from src/components/BookmarksSidebar.tsx: a truthy title
wins; a falsy url (absent or empty) yields "Link"; else the parsed hostname;
when `new URL` throws, the raw url string is returned. -/
def bookmarkLabel (env : JsEnv) (node : BNode) : String :=
  if node.title ≠ "" then node.title
  else
    match node.url with
    | none => "Link"
    | some u =>
        if u = "" then "Link"
        else
          match env.parseHostname u with
          | some host => host
          | none => u

/-- JS whitespace for `String.prototype.trim`: space, tab, line terminators,
vertical tab, form feed, no-break space and the BOM.  (The remaining Unicode
space separators trim identically and are not needed by any claim.) -/
def isJsWhitespace (c : Char) : Bool :=
  c = ' ' || c = '\t' || c = '\n' || c = '\r' || c = '\x0b' || c = '\x0c' ||
    c.toNat = 0xa0 || c.toNat = 0xfeff

/-- The JS `s.trim()` call: whitespace removed from both ends. -/
def jsTrim (s : String) : String :=
  String.mk (((s.data.dropWhile isJsWhitespace).reverse.dropWhile isJsWhitespace).reverse)

/-- The `while (result.length < MAX_SHORTCUTS) result.push({ id:
String(Date.now() + result.length), url: "", title: "" })` loop shared by
ensureSlots and removeShortcut.  The loop appends one element per iteration
and stops once the length reaches MAX_SHORTCUTS, so MAX_SHORTCUTS iterations
always suffice; the explicit fuel only makes the recursion structural. -/
def fillSlotsAux (now : Nat) : Nat → List Item → List Item
  | 0, l => l
  | fuel + 1, l =>
      if l.length < MAX_SHORTCUTS then
        fillSlotsAux now fuel (l ++ [⟨toString (now + l.length), "", ""⟩])
      else l

/-- The slot-refilling loop followed by `.slice(0, MAX_SHORTCUTS)`. -/
def fillAndClamp (now : Nat) (l : List Item) : List Item :=
  (fillSlotsAux now MAX_SHORTCUTS l).take MAX_SHORTCUTS

/-- The Shortcuts component state: the `shortcuts`, `editingIndex`, `editUrl`
and `editTitle` useState hooks. -/
structure CState where
  shortcuts : List Item
  editing : Option Nat
  editUrl : String
  editTitle : String
deriving DecidableEq

/-- startEdit (src/components/Shortcuts.tsx lines 98-103). -/
def startEditFn (i : Nat) (s : CState) : CState :=
  { s with
    editUrl := ((s.shortcuts[i]?).map Item.url).getD ""
    editTitle := ((s.shortcuts[i]?).map Item.title).getD ""
    editing := some i }

/-- saveEdit (src/components/Shortcuts.tsx lines 105-119).  The second
component is the list the persistence effect writes afterwards (the
`useEffect` on `[shortcuts]` runs whenever `setShortcuts` installed a new
array).  `url || ""` and `title || ""` are the identity on strings that are
already trimmed, and are modelled as such.  The JS assignment
`next[editingIndex] = ...` is modelled with `List.set`; the two differ only
when the index is at or beyond the list length, and editing sessions are only
ever opened by startEdit at rendered indices, which are below the length
(an invariant proved below). -/
def saveEditFn (now : Nat) (s : CState) : CState × Option (List Item) :=
  match s.editing with
  | none => (s, none)
  | some i =>
      let url := jsTrim s.editUrl
      let title := jsTrim s.editTitle
      let next := s.shortcuts.set i
        { id := ((s.shortcuts[i]?).map Item.id).getD (toString now)
          url := url
          title := title }
      ({ s with shortcuts := next, editing := none }, some next)

/-- removeShortcut (src/components/Shortcuts.tsx lines 121-130), which the UI
invokes only from the modal with the current (non-null) editingIndex:
`prev.filter((_, i) => i !== index)` drops the element at that position, the
while loop refills to capacity and `.slice(0, MAX_SHORTCUTS)` clamps;
editingIndex is reset to null. -/
def removeFn (now : Nat) (s : CState) : CState × Option (List Item) :=
  match s.editing with
  | none => (s, none)
  | some i =>
      let next := fillAndClamp now (s.shortcuts.eraseIdx i)
      ({ s with shortcuts := next, editing := none }, some next)

/-- ensureSlots (src/components/Shortcuts.tsx lines 80-92). -/
def ensureFn (now : Nat) (s : CState) : CState × Option (List Item) :=
  let next := fillAndClamp now s.shortcuts
  ({ s with shortcuts := next }, some next)

/-- The UI events that mutate the component state: opening an edit session,
typing in the two modal inputs, saving, removing, cancelling, and the
slot-filling effect. -/
inductive Op where
  | startEdit (i : Nat)
  | setUrl (v : String)
  | setTitle (v : String)
  | saveEdit
  | remove
  | cancel
  | ensureSlots

/-- One UI event.  The write component is `some l` exactly when the event
called setShortcuts (whereupon the persistence effect stores l). -/
def stepFn (now : Nat) : Op → CState → CState × Option (List Item)
  | .startEdit i, s => (startEditFn i s, none)
  | .setUrl v, s => ({ s with editUrl := v }, none)
  | .setTitle v, s => ({ s with editTitle := v }, none)
  | .saveEdit, s => saveEditFn now s
  | .remove, s => removeFn now s
  | .cancel, s => ({ s with editing := none }, none)
  | .ensureSlots, s => ensureFn now s

/-- Which events the rendered UI can actually fire in a given state:
startEdit only at a rendered tile index (the tiles map over `shortcuts`, so
indices are below the length), the modal inputs and buttons only while the
modal is open.  remove / saveEdit / cancel / ensureSlots are fired with no
further conditions (saveEdit and remove already guard on editingIndex). -/
def validOp (s : CState) : Op → Bool
  | .startEdit i => i < s.shortcuts.length
  | .setUrl _ => s.editing.isSome
  | .setTitle _ => s.editing.isSome
  | _ => true

/-- States the Shortcuts component can reach: it mounts with
`useState(loadShortcuts)` (a list of at most MAX_SHORTCUTS items, as proved
about loadShortcuts), empty drafts and no editing session, and then evolves
by UI events at arbitrary clock readings. -/
inductive Reachable : CState → Prop
  | init (l : List Item) (h : l.length ≤ MAX_SHORTCUTS) :
      Reachable ⟨l, none, "", ""⟩
  | step (s : CState) (now : Nat) (op : Op) (hs : Reachable s)
      (hv : validOp s op = true) : Reachable (stepFn now op s).1

/-- States reachable after the mount effect has run ensureSlots at least
once. -/
inductive PostSlots : CState → Prop
  | fill (s : CState) (now : Nat) (hs : Reachable s) :
      PostSlots (stepFn now .ensureSlots s).1
  | step (s : CState) (now : Nat) (op : Op) (hp : PostSlots s)
      (hv : validOp s op = true) : PostSlots (stepFn now op s).1

/-- The DEV_BOOKMARKS fallback dataset of variant 2 of BookmarksSidebar.
The result of isBookmarksApiAvailable — whether
`typeof chrome !== "undefined" && !!chrome?.bookmarks` holds — is passed to
the effect models below as a plain `avail : Bool` environment fact. -/
def DEV_BOOKMARKS : List BNode :=
  [ .mk "dev-1" "Bookmarks Bar" none
      [ .mk "dev-1-1" "Google" (some "https://www.google.com") []
      , .mk "dev-1-2" "GitHub" (some "https://github.com") []
      , .mk "dev-1-3" "Stack Overflow" (some "https://stackoverflow.com") []
      , .mk "dev-1-4" "Development" none
          [ .mk "dev-1-4-1" "MDN Web Docs" (some "https://developer.mozilla.org") []
          , .mk "dev-1-4-2" "TypeScript" (some "https://www.typescriptlang.org") []
          , .mk "dev-1-4-3" "Vite" (some "https://vitejs.dev") [] ] ]
  , .mk "dev-2" "Other Bookmarks" none
      [ .mk "dev-2-1" "YouTube" (some "https://www.youtube.com") []
      , .mk "dev-2-2" "Reddit" (some "https://www.reddit.com") []
      , .mk "dev-2-3" "News" none
          [ .mk "dev-2-3-1" "Hacker News" (some "https://news.ycombinator.com") []
          , .mk "dev-2-3-2" "TechCrunch" (some "https://techcrunch.com") [] ] ] ]

/-- JS truthiness of an optional url string. -/
def urlTruthy : Option String → Bool
  | none => false
  | some u => u ≠ ""

/-- The root filter inside the getTree callback:
`(tree[0]?.children ?? []).filter((n) => n.children?.length || n.url)`. -/
def rootsOf (tree : List BNode) : List BNode :=
  (((tree.head?).map BNode.children).getD []).filter
    (fun n => !n.children.isEmpty || urlTruthy n.url)

/-- The BookmarksSidebar state: the `bookmarks`, `expandedIds`, `loading` and
`error` useState hooks, the `isOpen` prop, and `pendingRequest`, which records
that a `chrome.bookmarks.getTree` callback has been registered and has not yet
fired.  Expansion ids are kept as the list the Set is built from. -/
structure BState where
  isOpen : Bool
  bookmarks : List BNode
  expandedIds : List String
  loading : Bool
  error : Option String
  pendingRequest : Bool

/-- The component before any open: closed, empty tree, loading initially
true, no error, no request in flight. -/
def initB : BState :=
  ⟨false, [], [], true, none, false⟩

/-- The useEffect body of variant 1 of BookmarksSidebar
(src/components/BookmarksSidebar.tsx lines 48-66), run when isOpen changes:
when closed or the capability is missing it stops loading (and surfaces
"Bookmarks unavailable" when the capability is missing); otherwise it enters
the loading state and registers the getTree callback.  Nothing cancels an
already-pending callback. -/
def effectV1 (avail : Bool) (s : BState) : BState :=
  if !s.isOpen || !avail then
    let s1 := { s with loading := false }
    if !avail then { s1 with error := some "Bookmarks unavailable" } else s1
  else
    { s with loading := true, error := none, pendingRequest := true }

/-- The useEffect body of variant 2 of BookmarksSidebar
(src/components/BookmarksSidebar.tsx lines 290-313): an early return when
closed; a synchronous dev-dataset fallback when the capability is missing;
otherwise the loading state plus a registered getTree callback.  Nothing
cancels an already-pending callback. -/
def effectV2 (avail : Bool) (s : BState) : BState :=
  if !s.isOpen then s
  else if !avail then
    { s with
      bookmarks := DEV_BOOKMARKS
      expandedIds := DEV_BOOKMARKS.map BNode.id
      loading := false
      error := none }
  else
    { s with loading := true, error := none, pendingRequest := true }

/-- The isOpen prop flips to true and the variant-1 effect re-runs. -/
def openEventV1 (avail : Bool) (s : BState) : BState :=
  effectV1 avail { s with isOpen := true }

/-- The isOpen prop flips to false and the variant-1 effect re-runs. -/
def closeEventV1 (avail : Bool) (s : BState) : BState :=
  effectV1 avail { s with isOpen := false }

/-- The isOpen prop flips to true and the variant-2 effect re-runs. -/
def openEventV2 (avail : Bool) (s : BState) : BState :=
  effectV2 avail { s with isOpen := true }

/-- The isOpen prop flips to false and the variant-2 effect re-runs. -/
def closeEventV2 (avail : Bool) (s : BState) : BState :=
  effectV2 avail { s with isOpen := false }

/-- The host delivers the bookmark forest to the pending getTree callback
(identical text in both variants): the callback applies the filtered roots to
the bookmarks / expandedIds / loading hooks unconditionally — its body never
consults isOpen.  With no callback pending, nothing happens. -/
def resolveEvent (tree : List BNode) (s : BState) : BState :=
  if s.pendingRequest then
    let roots := rootsOf tree
    { s with
      bookmarks := roots
      expandedIds := roots.map BNode.id
      loading := false
      pendingRequest := false }
  else s


/-! ## Helper lemmas -/

/-- The refill loop reaches capacity whenever it has enough fuel. -/
theorem fillSlotsAux_length_ge (now : Nat) :
    ∀ (fuel : Nat) (l : List Item), MAX_SHORTCUTS ≤ l.length + fuel →
      MAX_SHORTCUTS ≤ (fillSlotsAux now fuel l).length := by
  intro fuel
  induction fuel with
  | zero => intro l h; simpa [fillSlotsAux] using h
  | succ n ih =>
      intro l h
      by_cases hlt : l.length < MAX_SHORTCUTS
      · rw [fillSlotsAux, if_pos hlt]
        apply ih
        simp
        omega
      · rw [fillSlotsAux, if_neg hlt]
        omega

/-- Refilling then clamping always yields exactly MAX_SHORTCUTS items. -/
theorem fillAndClamp_length (now : Nat) (l : List Item) :
    (fillAndClamp now l).length = MAX_SHORTCUTS := by
  have h := fillSlotsAux_length_ge now MAX_SHORTCUTS l (by omega)
  simp only [fillAndClamp, List.length_take]
  omega

/-- The refill loop is the identity once the list is at capacity. -/
theorem fillSlotsAux_stop (now fuel : Nat) (l : List Item)
    (h : MAX_SHORTCUTS ≤ l.length) : fillSlotsAux now fuel l = l := by
  cases fuel with
  | zero => rfl
  | succ n => rw [fillSlotsAux, if_neg (by omega)]

/-- On a list of length MAX_SHORTCUTS - 1 the refill-and-clamp step appends
exactly one fresh empty-url placeholder whose id is String(now + 4). -/
theorem fillAndClamp_of_length_four (now : Nat) (l : List Item)
    (h : l.length = 4) :
    fillAndClamp now l = l ++ [⟨toString (now + 4), "", ""⟩] := by
  have hstep : fillSlotsAux now MAX_SHORTCUTS l =
      fillSlotsAux now 4 (l ++ [⟨toString (now + l.length), "", ""⟩]) := by
    rw [show MAX_SHORTCUTS = 4 + 1 from rfl, fillSlotsAux,
      if_pos (by simp [h, MAX_SHORTCUTS])]
  have hdone : fillSlotsAux now 4 (l ++ [⟨toString (now + l.length), "", ""⟩]) =
      l ++ [⟨toString (now + l.length), "", ""⟩] :=
    fillSlotsAux_stop now 4 _ (by simp [h, MAX_SHORTCUTS])
  simp only [fillAndClamp]
  rw [hstep, hdone, h]
  exact List.take_of_length_le (by simp [h, MAX_SHORTCUTS])

/-- Joint invariant of the reachable component states: the list never exceeds
capacity, and an open editing session always points below the list length. -/
theorem reachable_invariants (s : CState) (hr : Reachable s) :
    s.shortcuts.length ≤ MAX_SHORTCUTS ∧
      ∀ i, s.editing = some i → i < s.shortcuts.length := by
  induction hr with
  | init l hl =>
      refine ⟨hl, ?_⟩
      intro i hi
      simp at hi
  | step s now op hs hv ih =>
      obtain ⟨hlen, hedit⟩ := ih
      cases op with
      | startEdit i =>
          have hv2 : i < s.shortcuts.length := by simpa [validOp] using hv
          refine ⟨by simpa [stepFn, startEditFn] using hlen, ?_⟩
          intro j hj
          simp [stepFn, startEditFn] at hj ⊢
          omega
      | setUrl v =>
          exact ⟨by simpa [stepFn] using hlen, by simpa [stepFn] using hedit⟩
      | setTitle v =>
          exact ⟨by simpa [stepFn] using hlen, by simpa [stepFn] using hedit⟩
      | saveEdit =>
          cases hE : s.editing with
          | none =>
              refine ⟨by simpa [stepFn, saveEditFn, hE] using hlen, ?_⟩
              intro j hj
              simp [stepFn, saveEditFn, hE] at hj
          | some i =>
              refine ⟨by simpa [stepFn, saveEditFn, hE] using hlen, ?_⟩
              intro j hj
              simp [stepFn, saveEditFn, hE] at hj
      | remove =>
          cases hE : s.editing with
          | none =>
              refine ⟨by simpa [stepFn, removeFn, hE] using hlen, ?_⟩
              intro j hj
              simp [stepFn, removeFn, hE] at hj
          | some i =>
              refine ⟨?_, ?_⟩
              · simp [stepFn, removeFn, hE, fillAndClamp_length]
              · intro j hj
                simp [stepFn, removeFn, hE] at hj
      | cancel =>
          refine ⟨by simpa [stepFn] using hlen, ?_⟩
          intro j hj
          simp [stepFn] at hj
      | ensureSlots =>
          refine ⟨?_, ?_⟩
          · simp [stepFn, ensureFn, fillAndClamp_length]
          · intro j hj
            simp [stepFn, ensureFn] at hj
            have := hedit j hj
            simp [stepFn, ensureFn, fillAndClamp_length]
            omega

/-- Once the slot-filling effect has run, every state holds exactly
MAX_SHORTCUTS items. -/
theorem postSlots_length (s : CState) (hp : PostSlots s) :
    s.shortcuts.length = MAX_SHORTCUTS := by
  induction hp with
  | fill s now hs => simp [stepFn, ensureFn, fillAndClamp_length]
  | step s now op hp ih hv =>
      cases op with
      | startEdit i => simpa [stepFn, startEditFn] using hv
      | setUrl v => simpa [stepFn] using hv
      | setTitle v => simpa [stepFn] using hv
      | saveEdit =>
          cases hE : s.editing with
          | none => simpa [stepFn, saveEditFn, hE] using hv
          | some i => simpa [stepFn, saveEditFn, hE] using hv
      | remove =>
          cases hE : s.editing with
          | none => simpa [stepFn, removeFn, hE] using hv
          | some i => simp [stepFn, removeFn, hE, fillAndClamp_length]
      | cancel => simpa [stepFn] using hv
      | ensureSlots => simp [stepFn, ensureFn, fillAndClamp_length]

/-- What loadShortcuts returns when the stored text parses to a JSON array:
the array clamped to its first MAX_SHORTCUTS elements. -/
theorem loadShortcuts_arr (parse : String → Option Js) (raw : String)
    (items : List Js) (hraw : raw ≠ "") (hp : parse raw = some (.arr items)) :
    loadShortcuts parse (some raw) = .arr (items.take MAX_SHORTCUTS) := by
  have hbody : loadShortcutsBody parse (some raw) =
      .ok (some (.arr (items.take MAX_SHORTCUTS))) := by
    simp only [loadShortcutsBody, if_neg hraw, hp, jsLength]
    by_cases hle : items.length ≤ MAX_SHORTCUTS
    · rw [if_pos (by exact_mod_cast hle), List.take_of_length_le hle]
    · rw [if_neg (by exact_mod_cast hle)]
      simp [jsSlice, Except.map]
  simp [loadShortcuts, hbody]

/-- Character data of a string concatenation. -/
theorem string_data_append (a b : String) : (a ++ b).data = a.data ++ b.data :=
  rfl

/-- encodeURIComponent distributes over concatenation of character lists. -/
theorem encList_append (a b : List Char) :
    encList (a ++ b) = encList a ++ encList b := by
  induction a with
  | nil => rfl
  | cons c cs ih =>
      show encChar c ++ encList (cs ++ b) = encChar c ++ encList cs ++ encList b
      rw [ih, List.append_assoc]

/-- encodeURIComponent is the identity on unreserved characters. -/
theorem encList_of_unreserved (l : List Char)
    (h : ∀ c ∈ l, isUnreservedChar c = true) : encList l = l := by
  induction l with
  | nil => rfl
  | cons c cs ih =>
      show encChar c ++ encList cs = c :: cs
      rw [encChar, if_pos (h c (by simp)), ih (fun d hd => h d (by simp [hd]))]
      rfl

/-- Reading back the JS form of a ShortcutItem list recovers the list. -/
theorem itemsOfJsList_map (items : List Item) :
    itemsOfJsList (items.map jsOfItem) = some items := by
  induction items with
  | nil => rfl
  | cons it rest ih =>
      show itemsOfJsList (jsOfItem it :: rest.map jsOfItem) = _
      rw [itemsOfJsList, show itemOfJs (jsOfItem it) = some it from rfl, ih]

/-- JSON.stringify of an item array is never the empty string. -/
theorem stringifyItems_ne_empty (items : List Item) :
    stringifyItems items ≠ "" := by
  intro h
  have hlen := congrArg String.length h
  rw [stringifyItems, String.length_append, String.length_append] at hlen
  have h1 : "[".length = 1 := rfl
  have h2 : "]".length = 1 := rfl
  have h0 : "".length = 0 := rfl
  omega

/-! ## Claim theorems -/

/-- Claim C1: for every sequence of shortcut operations (load, save-edit,
remove, slot-filling) the length of the shortcut list is at most
MAX_SHORTCUTS after each operation, and load truncates any oversized stored
array to its first MAX_SHORTCUTS items. -/
theorem shortcut_capacity_invariant :
    (∀ s : CState, Reachable s → s.shortcuts.length ≤ MAX_SHORTCUTS) ∧
    (∀ (parse : String → Option Js) (raw : String) (items : List Js),
      raw ≠ "" → parse raw = some (.arr items) →
      loadShortcuts parse (some raw) = .arr (items.take MAX_SHORTCUTS)) :=
  ⟨fun s hr => (reachable_invariants s hr).1,
   fun parse raw items hraw hp => loadShortcuts_arr parse raw items hraw hp⟩

/-- Witness for C1 at concrete inputs: the mount state holding the default
shortcuts is reachable and within capacity, and loading a stored
six-element array yields its first five elements. -/
theorem shortcut_capacity_invariant_witness :
    (⟨defaultShortcuts, none, "", ""⟩ : CState).shortcuts.length ≤ MAX_SHORTCUTS ∧
    loadShortcuts (fun _ => some (.arr [.num 0, .num 1, .num 2, .num 3, .num 4, .num 5]))
        (some "[0,1,2,3,4,5]") =
      .arr ([Js.num 0, .num 1, .num 2, .num 3, .num 4, .num 5].take MAX_SHORTCUTS) :=
  ⟨shortcut_capacity_invariant.1 _ (Reachable.init defaultShortcuts (by decide)),
   shortcut_capacity_invariant.2 _ "[0,1,2,3,4,5]" _ (by decide) rfl⟩

/-- Claim C10: once the slot-filling effect has run, the list holds exactly
MAX_SHORTCUTS items after every operation; in particular a remove from a
full list never shortens it but refills with one fresh empty-url placeholder
(whose id is String(now + 4)), and save-edit replaces in place. -/
theorem slots_fixed_after_fill :
    (∀ s : CState, PostSlots s → s.shortcuts.length = MAX_SHORTCUTS) ∧
    (∀ (now : Nat) (s : CState) (i : Nat), s.editing = some i →
      s.shortcuts.length = MAX_SHORTCUTS → i < MAX_SHORTCUTS →
      (stepFn now .remove s).1.shortcuts =
        s.shortcuts.eraseIdx i ++ [⟨toString (now + 4), "", ""⟩]) := by
  refine ⟨fun s hp => postSlots_length s hp, ?_⟩
  intro now s i hE hlen hi
  have he : (s.shortcuts.eraseIdx i).length = 4 := by
    rw [List.length_eraseIdx_of_lt (by omega : i < s.shortcuts.length), hlen]
    rfl
  simp only [stepFn, removeFn, hE]
  exact fillAndClamp_of_length_four now _ he

/-- Witness for C10 at concrete inputs: running the slot-filling effect on
the mount state yields exactly MAX_SHORTCUTS slots, and a remove at index 0
of a full list at clock 3 appends the placeholder with id "7". -/
theorem slots_fixed_after_fill_witness :
    (stepFn 0 .ensureSlots (⟨defaultShortcuts, none, "", ""⟩ : CState)).1.shortcuts.length =
      MAX_SHORTCUTS ∧
    (stepFn 3 .remove (⟨defaultShortcuts, some 0, "", ""⟩ : CState)).1.shortcuts =
      defaultShortcuts.eraseIdx 0 ++ [⟨toString (3 + 4), "", ""⟩] :=
  ⟨slots_fixed_after_fill.1 _
      (PostSlots.fill ⟨defaultShortcuts, none, "", ""⟩ 0
        (Reachable.init defaultShortcuts (by decide))),
   slots_fixed_after_fill.2 3 ⟨defaultShortcuts, some 0, "", ""⟩ 0 rfl (by decide) (by decide)⟩

/-- A concrete editing session over the default shortcuts whose draft URL is
whitespace only: startEdit(0) followed by typing "   " into the URL input. -/
def emptyUrlSession : CState :=
  (stepFn 7 (.setUrl "   ")
    ((stepFn 7 (.startEdit 0) (⟨defaultShortcuts, none, "", ""⟩ : CState)).1)).1

/-- Counterexample to claim C2 as stated: in a session whose draft URL trims
to the empty string, save does NOT leave the state alone — saveEdit has no
validation, so it closes the session (editingIndex becomes null), changes
the list (the target item's url becomes ""), and hands the new list to the
persistence effect. -/
theorem saveEdit_empty_url_commits :
    emptyUrlSession.editing = some 0 ∧
    jsTrim emptyUrlSession.editUrl = "" ∧
    (stepFn 7 .saveEdit emptyUrlSession).1.editing = none ∧
    (stepFn 7 .saveEdit emptyUrlSession).1.shortcuts ≠ emptyUrlSession.shortcuts ∧
    (stepFn 7 .saveEdit emptyUrlSession).2 =
      some (stepFn 7 .saveEdit emptyUrlSession).1.shortcuts := by
  refine ⟨rfl, by decide, rfl, by decide, rfl⟩

/-- Claim C2 (amended): when the draft URL trims to the empty string, save
still commits — it overwrites the item at the editing index with an
empty-url entry (keeping the existing id and the trimmed title), closes the
editing session, and triggers a persistence write of the new list. -/
theorem saveEdit_empty_url_behavior (now : Nat) (s : CState) (i : Nat) (old : Item)
    (hE : s.editing = some i) (hi : s.shortcuts[i]? = some old)
    (hu : jsTrim s.editUrl = "") :
    (stepFn now .saveEdit s).1.editing = none ∧
    (stepFn now .saveEdit s).1.shortcuts =
      s.shortcuts.set i ⟨old.id, "", jsTrim s.editTitle⟩ ∧
    (stepFn now .saveEdit s).2 = some ((stepFn now .saveEdit s).1.shortcuts) := by
  simp [stepFn, saveEditFn, hE, hi, hu]

/-- Witness for C2's amended theorem at the concrete whitespace-URL session. -/
theorem saveEdit_empty_url_behavior_witness :
    (stepFn 7 .saveEdit emptyUrlSession).1.editing = none ∧
    (stepFn 7 .saveEdit emptyUrlSession).1.shortcuts =
      emptyUrlSession.shortcuts.set 0
        ⟨(⟨"1", "https://mail.google.com", "Gmail"⟩ : Item).id, "",
          jsTrim emptyUrlSession.editTitle⟩ ∧
    (stepFn 7 .saveEdit emptyUrlSession).2 =
      some ((stepFn 7 .saveEdit emptyUrlSession).1.shortcuts) :=
  saveEdit_empty_url_behavior 7 emptyUrlSession 0
    ⟨"1", "https://mail.google.com", "Gmail"⟩ rfl rfl (by decide)

/-- Claim C6 is violated by the code: removing the tile at index 3 and then
the tile at index 2 within the same millisecond (Date.now() = 1000 for both)
leaves two items with the identical id "1004" — ids derived from
Date.now() + length are not pairwise distinct under rapid sequential
operations. -/
theorem remove_same_millisecond_duplicate_ids :
    ((stepFn 1000 .remove (stepFn 1000 (.startEdit 2) (stepFn 1000 .remove
        (stepFn 1000 (.startEdit 3)
          (⟨defaultShortcuts, none, "", ""⟩ : CState)).1).1).1).1).shortcuts.map Item.id =
      ["1", "2", "5", "1004", "1004"] ∧
    ¬ (["1", "2", "5", "1004", "1004"] : List String).Nodup := by
  refine ⟨by decide, by decide⟩

/-- Claim C5: for every possible stored value, loadShortcuts never throws —
every exception of the try body (a JSON.parse failure, or a .slice call on a
parse result without one) is swallowed by the catch, after which the
deterministic default set is returned; an absent key, the falsy empty
string, and unparsable text all yield the default set, and a well-formed
stored array is returned clamped to its first MAX_SHORTCUTS elements. -/
theorem load_never_throws_and_defaults
    (parse : String → Option Js) (stored : Option String) :
    (∀ e, loadShortcutsBody parse stored = .error e →
      loadShortcuts parse stored = defaultShortcutsJs) ∧
    (stored = none → loadShortcuts parse stored = defaultShortcutsJs) ∧
    (stored = some "" → loadShortcuts parse stored = defaultShortcutsJs) ∧
    (∀ raw, stored = some raw → parse raw = none →
      loadShortcuts parse stored = defaultShortcutsJs) ∧
    (∀ raw items, stored = some raw → raw ≠ "" → parse raw = some (.arr items) →
      loadShortcuts parse stored = .arr (items.take MAX_SHORTCUTS)) := by
  refine ⟨?_, ?_, ?_, ?_, ?_⟩
  · intro e he
    simp [loadShortcuts, he]
  · intro h
    subst h
    rfl
  · intro h
    subst h
    rfl
  · intro raw hs hp
    subst hs
    by_cases hraw : raw = ""
    · subst hraw
      rfl
    · simp [loadShortcuts, loadShortcutsBody, if_neg hraw, hp]
  · intro raw items hs hraw hp
    subst hs
    exact loadShortcuts_arr parse raw items hraw hp

/-- Witness for C5 at concrete stored values: an absent key, the empty
string, unparsable text (parse throws), and a stored two-element array. -/
theorem load_never_throws_and_defaults_witness :
    loadShortcuts (fun _ => none) none = defaultShortcutsJs ∧
    loadShortcuts (fun _ => none) (some "") = defaultShortcutsJs ∧
    loadShortcuts (fun _ => none) (some "\x7boops") = defaultShortcutsJs ∧
    loadShortcuts (fun _ => some (.arr [.bool true, .null])) (some "[true,null]") =
      .arr ([Js.bool true, Js.null].take MAX_SHORTCUTS) :=
  ⟨(load_never_throws_and_defaults (fun _ => none) none).2.1 rfl,
   (load_never_throws_and_defaults (fun _ => none) (some "")).2.2.1 rfl,
   (load_never_throws_and_defaults (fun _ => none) (some "\x7boops")).2.2.2.1
     "\x7boops" rfl rfl,
   (load_never_throws_and_defaults (fun _ => some (.arr [.bool true, .null]))
     (some "[true,null]")).2.2.2.2 "[true,null]" [.bool true, .null] rfl (by decide) rfl⟩

/-- Claim C9: for a stored value produced by save (which the program only
invokes on component states, whose length is at most MAX_SHORTCUTS by the
capacity invariant), save(load()) with no intervening mutation reproduces
byte-identical stored content.  The only assumption about the platform is
the JSON round trip: JSON.parse of JSON.stringify(items) yields the items
array back. -/
theorem save_load_roundtrip (parse : String → Option Js) (items : List Item)
    (hlen : items.length ≤ MAX_SHORTCUTS)
    (hparse : parse (saveShortcuts items) = some (jsOfItems items)) :
    saveShortcuts items ≠ "" ∧
    ∃ loaded : List Item,
      itemsOfJs (loadShortcuts parse (some (saveShortcuts items))) = some loaded ∧
      saveShortcuts loaded = saveShortcuts items := by
  have hne : saveShortcuts items ≠ "" := stringifyItems_ne_empty items
  have hload : loadShortcuts parse (some (saveShortcuts items)) =
      .arr ((items.map jsOfItem).take MAX_SHORTCUTS) :=
    loadShortcuts_arr parse _ _ hne hparse
  have htake : (items.map jsOfItem).take MAX_SHORTCUTS = items.map jsOfItem :=
    List.take_of_length_le (by simpa using hlen)
  refine ⟨hne, items, ?_, rfl⟩
  rw [hload, htake]
  show itemsOfJsList (items.map jsOfItem) = some items
  exact itemsOfJsList_map items

/-- A platform JSON.parse restricted to the single text C9's witness needs,
satisfying the round-trip fact on it. -/
def parseRoundTrip : String → Option Js := fun s =>
  if s = saveShortcuts defaultShortcuts then some (jsOfItems defaultShortcuts) else none

/-- Witness for C9 at the default shortcut set. -/
theorem save_load_roundtrip_witness :
    saveShortcuts defaultShortcuts ≠ "" ∧
    ∃ loaded : List Item,
      itemsOfJs (loadShortcuts parseRoundTrip (some (saveShortcuts defaultShortcuts))) =
        some loaded ∧
      saveShortcuts loaded = saveShortcuts defaultShortcuts :=
  save_load_roundtrip parseRoundTrip defaultShortcuts (by decide)
    (by simp [parseRoundTrip])

/-- Claim C7: a URL whose parsed hostname is in the CUSTOM_ICONS table
resolves to the curated override verbatim, regardless of the favicon-service
configuration in the environment; a URL with a parsable hostname not in the
table delegates to the favicon service, and the resulting favicon URL
contains the hostname (the hostname occurs contiguously in the page URL and
consists of encodeURIComponent-unreserved characters, so it survives into
both the chrome `pageUrl=` form and the public `domain=` form). -/
theorem icon_resolution_precedence :
    (∀ (env : JsEnv) (url host icon : String),
      env.parseHostname url = some host →
      CUSTOM_ICONS.lookup host = some icon →
      getShortcutIconUrl env url = icon) ∧
    (∀ (env : JsEnv) (url host : String) (pre suf : List Char),
      env.parseHostname url = some host →
      CUSTOM_ICONS.lookup host = none →
      url.data = pre ++ host.data ++ suf →
      (∀ c ∈ host.data, isUnreservedChar c = true) →
      getShortcutIconUrl env url = getFaviconUrl env url 64 ∧
      ∃ p q : List Char, (getShortcutIconUrl env url).data = p ++ host.data ++ q) := by
  constructor
  · intro env url host icon hparse hlook
    simp [getShortcutIconUrl, hparse, hlook]
  · intro env url host pre suf hparse hlook hsplit hunres
    have heq : getShortcutIconUrl env url = getFaviconUrl env url 64 := by
      simp [getShortcutIconUrl, hparse, hlook]
    refine ⟨heq, ?_⟩
    rw [heq]
    have hhost : encList host.data = host.data := encList_of_unreserved host.data hunres
    cases hbase : env.chromeFaviconBase with
    | some base =>
        refine ⟨base.data ++ "?pageUrl=".data ++ encList pre,
          encList suf ++ "&size=".data ++ (toString 64).data, ?_⟩
        simp only [getFaviconUrl, hbase, encodeURIComponent, string_data_append,
          hsplit, encList_append, hhost, List.append_assoc]
    | none =>
        refine ⟨"https://www.google.com/s2/favicons?domain=".data,
          "&sz=".data ++ (toString 64).data, ?_⟩
        simp only [getFaviconUrl, hbase, hparse, string_data_append, List.append_assoc]

/-- A concrete hostname parser for C7's witness: it parses the two page URLs
the witness uses (both genuinely parsable by the WHATWG URL constructor). -/
def iconEnv : JsEnv :=
  ⟨fun u =>
    if u = "https://mail.google.com/mail" then some "mail.google.com"
    else if u = "https://example.com/x" then some "example.com"
    else none,
   none⟩

/-- Witness for C7: the gmail URL hits the brand override; an example.com
URL falls through to the favicon service with the hostname inside it. -/
theorem icon_resolution_precedence_witness :
    getShortcutIconUrl iconEnv "https://mail.google.com/mail" =
      "https://cdn.simpleicons.org/gmail/EA4335" ∧
    (getShortcutIconUrl iconEnv "https://example.com/x" =
      getFaviconUrl iconEnv "https://example.com/x" 64 ∧
     ∃ p q : List Char,
       (getShortcutIconUrl iconEnv "https://example.com/x").data =
         p ++ "example.com".data ++ q) :=
  ⟨icon_resolution_precedence.1 iconEnv "https://mail.google.com/mail"
      "mail.google.com" "https://cdn.simpleicons.org/gmail/EA4335" rfl rfl,
   icon_resolution_precedence.2 iconEnv "https://example.com/x" "example.com"
      "https://".data "/x".data rfl rfl (by decide) (by decide)⟩

/-- Counterexample to claim C8 as stated: a bookmark whose title is empty
and whose url is present but unparsable is labelled with the raw url string,
not with the fixed literal "Link" — bookmarkLabel's catch branch returns
node.url.  (The string "::bad::" makes the URL constructor throw.) -/
theorem bookmark_label_unparsable_not_literal :
    bookmarkLabel ⟨fun _ => none, none⟩ (.mk "b1" "" (some "::bad::") []) = "::bad::" ∧
    ("::bad::" : String) ≠ "Link" :=
  ⟨rfl, by decide⟩

/-- Claim C8 (amended): the label is the title when non-empty; otherwise for
shortcuts the hostname with a leading "www." stripped, or "Link" when the
URL is unparsable; for bookmarks the hostname unstripped, with "Link" only
for an absent or empty url — a present but unparsable bookmark url labels
with the raw url string itself. -/
theorem label_derivation :
    (∀ (env : JsEnv) (item : Item), item.title ≠ "" → getLabel env item = item.title) ∧
    (∀ (env : JsEnv) (item : Item) (host : String), item.title = "" →
      env.parseHostname item.url = some host → getLabel env item = stripWww host) ∧
    (∀ (env : JsEnv) (item : Item), item.title = "" →
      env.parseHostname item.url = none → getLabel env item = "Link") ∧
    (∀ (env : JsEnv) (node : BNode), node.title ≠ "" →
      bookmarkLabel env node = node.title) ∧
    (∀ (env : JsEnv) (node : BNode), node.title = "" →
      (node.url = none ∨ node.url = some "") → bookmarkLabel env node = "Link") ∧
    (∀ (env : JsEnv) (node : BNode) (u host : String), node.title = "" →
      node.url = some u → u ≠ "" → env.parseHostname u = some host →
      bookmarkLabel env node = host) ∧
    (∀ (env : JsEnv) (node : BNode) (u : String), node.title = "" →
      node.url = some u → u ≠ "" → env.parseHostname u = none →
      bookmarkLabel env node = u) := by
  refine ⟨?_, ?_, ?_, ?_, ?_, ?_, ?_⟩
  · intro env item ht
    simp [getLabel, ht]
  · intro env item host ht hp
    simp [getLabel, ht, hp]
  · intro env item ht hp
    simp [getLabel, ht, hp]
  · intro env node ht
    simp [bookmarkLabel, ht]
  · intro env node ht hu
    rcases hu with hu | hu <;> simp [bookmarkLabel, ht, hu]
  · intro env node u host ht hu hne hp
    simp [bookmarkLabel, ht, hu, hne, hp]
  · intro env node u ht hu hne hp
    simp [bookmarkLabel, ht, hu, hne, hp]

/-- A concrete hostname parser for C8's witness. -/
def labelEnv : JsEnv :=
  ⟨fun u =>
    if u = "https://www.example.com/x" then some "www.example.com" else none,
   none⟩

/-- Witness for C8's amended theorem: the spec's own example item labels
"example.com", and a bookmark with empty title and unparsable url labels
with the raw url. -/
theorem label_derivation_witness :
    getLabel labelEnv ⟨"9", "https://www.example.com/x", ""⟩ = "example.com" ∧
    bookmarkLabel labelEnv (.mk "b2" "" (some "nonsense") []) = "nonsense" :=
  ⟨(label_derivation.2.1 labelEnv ⟨"9", "https://www.example.com/x", ""⟩
      "www.example.com" rfl rfl).trans (by decide),
   label_derivation.2.2.2.2.2.2 labelEnv (.mk "b2" "" (some "nonsense") [])
      "nonsense" rfl rfl (by decide) rfl⟩

/-- A concrete bookmark forest for C3: the host root whose children hold one
non-empty top-level folder. -/
def sampleTree : List BNode :=
  [ .mk "0" "" none
      [ .mk "1" "Bookmarks Bar" none
          [ .mk "2" "Google" (some "https://www.google.com") [] ] ] ]

/-- Claim C3 is violated by the code: open the panel (capability available),
close it while the getTree callback is still pending, then let the host
deliver the tree — the callback body never consults isOpen, so the resolved
roots ARE applied to the closed panel's bookmarks / expandedIds / loading
state instead of being discarded.  (The getTree callback is textually
identical in both variants of the component; the trace below uses the
variant-2 effect.) -/
theorem stale_resolve_applied_after_close :
    (closeEventV2 true (openEventV2 true initB)).isOpen = false ∧
    (closeEventV2 true (openEventV2 true initB)).bookmarks.length = 0 ∧
    (closeEventV2 true (openEventV2 true initB)).pendingRequest = true ∧
    (resolveEvent sampleTree (closeEventV2 true (openEventV2 true initB))).isOpen = false ∧
    (resolveEvent sampleTree (closeEventV2 true (openEventV2 true initB))).bookmarks.length = 1 ∧
    (resolveEvent sampleTree (closeEventV2 true (openEventV2 true initB))).expandedIds = ["1"] ∧
    (resolveEvent sampleTree (closeEventV2 true (openEventV2 true initB))).loading = false :=
  ⟨rfl, rfl, rfl, rfl, rfl, rfl, rfl⟩

/-- Counterexample to claim C4 as stated: in variant 1 of BookmarksSidebar
an open transition with the bookmarks capability absent does NOT produce the
dev fallback tree with no error — it leaves the tree empty and sets the
visible error "Bookmarks unavailable". -/
theorem unavailable_open_v1_no_dev_fallback :
    (openEventV1 false initB).error = some "Bookmarks unavailable" ∧
    (openEventV1 false initB).bookmarks.length = 0 ∧
    (openEventV1 false initB).loading = false ∧
    DEV_BOOKMARKS.length = 2 :=
  ⟨rfl, rfl, rfl, rfl⟩

/-- Claim C4 (amended): with the bookmarks capability absent, an open
transition in variant 2 immediately installs the fixed DEV_BOOKMARKS
dataset with its root ids expanded, loading false and error null; in
variant 1, which has no dev fallback, it ends loading with the error
"Bookmarks unavailable" and leaves the bookmark tree unchanged. -/
theorem unavailable_open_fallback_by_variant (s : BState) :
    ((openEventV2 false s).bookmarks = DEV_BOOKMARKS ∧
     (openEventV2 false s).expandedIds = DEV_BOOKMARKS.map BNode.id ∧
     (openEventV2 false s).loading = false ∧
     (openEventV2 false s).error = none) ∧
    ((openEventV1 false s).loading = false ∧
     (openEventV1 false s).error = some "Bookmarks unavailable" ∧
     (openEventV1 false s).bookmarks = s.bookmarks) :=
  ⟨⟨rfl, rfl, rfl, rfl⟩, ⟨rfl, rfl, rfl⟩⟩
